import Mathlib

/-!
Verification of the name-filtering, identifier-parsing and report-assembly
logic of `cross_analysis.py` (scVAE repository).

Python strings are modelled as lists of characters (`PyStr`); Python's
truthiness of the integer produced by `matchString` is modelled as being
nonzero.  Fallible Python code (exceptions such as KeyError / IndexError /
ValueError) is modelled with `Option`.
-/

/-- Python strings are modelled as lists of characters. -/
abbrev PyStr := List Char

/-- Coercion from Lean string literals into the Python-string model. -/
def pystr (s : String) : PyStr := s.toList

/-- Python's `t in s` substring test: `t` occurs contiguously inside `s`. -/
def pyIn : PyStr → PyStr → Bool
  | t, [] => t.isEmpty
  | t, c :: cs => t.isPrefixOf (c :: cs) || pyIn t cs

/-- Embedding of `matchString` (cross_analysis.py, lines 663-679).
`match` starts as Python `True` (modelled as 1) and is multiplied by
`True`/`False` (1/0) for every inclusion and exclusion test; the function
returns the resulting integer, which callers use for its truthiness. -/
def matchString (s : PyStr) (included_strings excluded_strings : List PyStr) : Nat :=
  excluded_strings.foldl
    (fun m t => m * (if pyIn t s then 0 else 1))
    (included_strings.foldl
      (fun m t => m * (if pyIn t s then 1 else 0)) 1)

/-- Python's `str.isdigit()` (for the ASCII decimal strings this program
handles): nonempty and all characters decimal digits. -/
def pyIsDigitStr (s : PyStr) : Bool := !s.isEmpty && s.all Char.isDigit

/-- Value of Python's `int(...)` on a string of decimal digits. -/
def pyIntOfDigits (s : PyStr) : Nat :=
  s.foldl (fun n c => 10 * n + (c.toNat - 48)) 0

/-- Helper for `pySplitWS`: `acc` holds the (reversed) current word. -/
def pySplitWSAux : PyStr → PyStr → List PyStr
  | [], acc => if acc.isEmpty then [] else [acc.reverse]
  | c :: cs, acc =>
    if c.isWhitespace then
      (if acc.isEmpty then pySplitWSAux cs [] else acc.reverse :: pySplitWSAux cs [])
    else pySplitWSAux cs (c :: acc)

/-- Python's `str.split()` with no argument: split on runs of whitespace,
dropping empty words. -/
def pySplitWS (s : PyStr) : List PyStr := pySplitWSAux s []

/-- Embedding of the `version_rank` dictionary lookup inside
`parseNumberOfEpochsAndVersion` (cross_analysis.py, lines 877-882);
`none` models a Python `KeyError` on an unrecognised version tag. -/
def versionRank (v : PyStr) : Option Int :=
  if v = pystr "default" then some 0
  else if v = pystr "(ES)" then some (-1)
  else if v = pystr "(*)" then some 2
  else none

/-- Embedding of `parseNumberOfEpochsAndVersion` (cross_analysis.py, lines
876-890).  `none` models the exceptions the Python code can raise: a
`ValueError` when `ev.split()` does not have exactly two parts or the epoch
part is not an integer literal, and a `KeyError` from the rank lookup. -/
def parseNumberOfEpochsAndVersion (ev : PyStr) : Option (Nat × Int) :=
  if pyIsDigitStr ev then some (pyIntOfDigits ev, 0)
  else
    match pySplitWS ev with
    | [e, v] =>
      if pyIsDigitStr e then (versionRank v).map (fun r => (pyIntOfDigits e, r))
      else none
    | _ => none

/-- Embedding of `bestModelVersion` (cross_analysis.py, lines 892-907);
`none` models an exception raised while parsing either label. -/
def bestModelVersion (ev1 ev2 : PyStr) : Option PyStr :=
  match parseNumberOfEpochsAndVersion ev1, parseNumberOfEpochsAndVersion ev2 with
  | some (e1, v1), some (e2, v2) =>
    if v1 > v2 then some ev1
    else if v2 > v1 then some ev2
    else if e1 > e2 then some ev1
    else if e2 > e1 then some ev2
    else some ev1
  | _, _ => none

/-- A checkpoint label built from an epoch digit-string and an optional
bracketed version tag, as described by the specification. -/
def mkLabel (e : PyStr) (tag : Option PyStr) : PyStr :=
  match tag with
  | none => e
  | some t => e ++ ' ' :: t

/-- Rank of a version tag as stated by the specification: untagged
default 0, early-stopped -1, best-checkpoint 2. -/
def tagRank : Option PyStr → Int
  | none => 0
  | some t => if t = pystr "(ES)" then -1 else if t = pystr "(*)" then 2 else 0

/-! ### Regular-expression engine

The name formatter of `cross_analysis.py` relies on Python's `re.search` and
`re.sub`.  The patterns the script uses need only: literal characters,
single-character classes, greedy one-or-more repetition of a class, greedy
option, numbered capture groups and concatenation.  The engine below gives
these Python's leftmost, greedy, backtracking semantics: a match attempt
produces the list of all (remaining-input, group-bindings) outcomes in
priority order, and search/substitution take the first outcome at the
leftmost matching position. -/

/-- Abstract syntax of the regular-expression fragment used by the script. -/
inductive RE : Type
  | eps : RE
  | lit : Char → RE
  | cls : (Char → Bool) → RE
  | plus : (Char → Bool) → RE
  | opt : RE → RE
  | group : Nat → RE → RE
  | cat : RE → RE → RE

/-- Numbered capture-group bindings recorded during one match attempt. -/
abbrev Bindings := List (Nat × PyStr)

/-- Length of the maximal prefix of `s` whose characters satisfy `p`. -/
def runLen (p : Char → Bool) : PyStr → Nat
  | [] => 0
  | c :: cs => if p c then runLen p cs + 1 else 0

/-- All ways a regular expression can match a prefix of `s`, as pairs of
(remaining suffix, group bindings), greedy alternatives first. -/
def reMatch : RE → PyStr → List (PyStr × Bindings)
  | RE.eps, s => [(s, [])]
  | RE.lit _, [] => []
  | RE.lit c, x :: xs => if x = c then [(xs, [])] else []
  | RE.cls _, [] => []
  | RE.cls p, x :: xs => if p x then [(xs, [])] else []
  | RE.plus p, s =>
    (List.range (runLen p s)).map (fun i => (s.drop (runLen p s - i), []))
  | RE.opt r, s => reMatch r s ++ [(s, [])]
  | RE.group n r, s =>
    (reMatch r s).map
      (fun o => (o.1, o.2 ++ [(n, s.take (s.length - o.1.length))]))
  | RE.cat r1 r2, s =>
    ((reMatch r1 s).map (fun o1 =>
      (reMatch r2 o1.1).map (fun o2 => (o2.1, o1.2 ++ o2.2)))).flatten

/-- Number of capture groups of a pattern (Python numbers them 1..count). -/
def groupCount : RE → Nat
  | RE.group n r => max n (groupCount r)
  | RE.cat r1 r2 => max (groupCount r1) (groupCount r2)
  | RE.opt r => groupCount r
  | _ => 0

/-- Last recorded binding for group `n` (Python keeps the last repetition). -/
def bindingLookup (b : Bindings) (n : Nat) : Option PyStr :=
  (b.reverse.find? (fun x => x.1 = n)).map (fun x => x.2)

/-- Model of a Python match object: the tuple `groups()` with `none` for a
group that did not participate in the match. -/
structure Match where
  groups : List (Option PyStr)

/-- Python's `match.group(n)` for `n ≥ 1` (`none` models Python's `None`). -/
def Match.group (m : Match) (n : Nat) : Option PyStr :=
  (m.groups.get? (n - 1)).join

/-- Build the match object of one attempt from its bindings. -/
def mkMatch (r : RE) (b : Bindings) : Match :=
  ⟨(List.range (groupCount r)).map (fun i => bindingLookup b (i + 1))⟩

/-- First (greediest) way `r` matches a prefix of `s`. -/
def firstMatch (r : RE) (s : PyStr) : Option (PyStr × Bindings) :=
  (reMatch r s).head?

/-- Helper for `reSearch`: try each start position from left to right. -/
def reSearchAux (r : RE) : PyStr → Option Match
  | [] => (firstMatch r []).map (fun o => mkMatch r o.2)
  | c :: cs =>
    match firstMatch r (c :: cs) with
    | some o => some (mkMatch r o.2)
    | none => reSearchAux r cs

/-- Python's `re.search`: the leftmost match object, if any. -/
def reSearch (r : RE) (s : PyStr) : Option Match := reSearchAux r s

/-- Fuelled global substitution: replace every leftmost non-overlapping
match of `r` in `s` by the replacement computed from its match object. -/
def reSubFuel (r : RE) (f : Match → PyStr) : Nat → PyStr → PyStr
  | 0, s => s
  | fuel + 1, s =>
    match firstMatch r s with
    | some o =>
      if o.1.length = s.length then
        f (mkMatch r o.2) ++
          (match s with
           | [] => []
           | c :: cs => c :: reSubFuel r f fuel cs)
      else f (mkMatch r o.2) ++ reSubFuel r f fuel o.1
    | none =>
      match s with
      | [] => []
      | c :: cs => c :: reSubFuel r f fuel cs

/-- Python's `re.sub` with a replacement function. -/
def reSub (r : RE) (f : Match → PyStr) (s : PyStr) : PyStr :=
  reSubFuel r f (s.length + 1) s

/-- Pattern consisting of the literal characters of `s` in sequence. -/
def strRE (s : String) : RE :=
  s.toList.foldr (fun c r => RE.cat (RE.lit c) r) RE.eps

/-- Python's word character class (ASCII fragment, as used by the script). -/
def wordChar (c : Char) : Bool := c.isAlphanum || c = '_'

/-- Character class of a digit or a dot, Python's `[\d.]`. -/
def digitDot (c : Char) : Bool := c.isDigit || c = '.'

/-! ### String helpers shared by the formatter and the scanner -/

/-- Fuelled helper for `pyReplaceStr`. -/
def pyReplaceFuel (pat rep : PyStr) : Nat → PyStr → PyStr
  | 0, s => s
  | fuel + 1, s =>
    if !pat.isEmpty && pat.isPrefixOf s then
      rep ++ pyReplaceFuel pat rep fuel (s.drop pat.length)
    else
      match s with
      | [] => []
      | c :: cs => c :: pyReplaceFuel pat rep fuel cs

/-- Python's `str.replace`: replace all leftmost non-overlapping occurrences
of `pat` (nonempty for every use in this program) by `rep`. -/
def pyReplaceStr (s pat rep : PyStr) : PyStr := pyReplaceFuel pat rep s.length s

/-- Python's string interpolation of a value that may be `None`. -/
def pyFormatOptStr : Option PyStr → PyStr
  | some s => s
  | none => pystr "None"

/-- Exact decimal numbers, value `num / 10 ^ scale`, modelling the Python
float values the replacement lambdas compute with.  For the decimal
literals captured by this script's patterns and the multiplication by 100
applied to one of them, IEEE double arithmetic rounds to exactly these
values, so the model is faithful where it is used. -/
structure PyDec where
  num : Nat
  scale : Nat

/-- Python's `float(...)` on the nonnegative decimal literals captured by
the patterns of this script. -/
def pyFloatOfStr (s : PyStr) : PyDec :=
  ⟨pyIntOfDigits (s.takeWhile (fun c => c ≠ '.')) *
      10 ^ ((s.dropWhile (fun c => c ≠ '.')).drop 1).length +
    pyIntOfDigits ((s.dropWhile (fun c => c ≠ '.')).drop 1),
   ((s.dropWhile (fun c => c ≠ '.')).drop 1).length⟩

/-- Multiplication of a decimal by a natural number. -/
def PyDec.mulNat (k : Nat) (d : PyDec) : PyDec := ⟨k * d.num, d.scale⟩

/-- Python's `int(...)` truncation on the nonnegative decimals produced by
`pyFloatOfStr` in this program. -/
def pyIntTrunc (d : PyDec) : Nat := d.num / 10 ^ d.scale

/-- Decimal rendering of a natural number. -/
def natToStr (n : Nat) : PyStr := Nat.toDigits 10 n

/-- Python's format specifier g with precision 3, modelled exactly for the
nonnegative integral values below 1000 that reach it in this development
(an integral value is printed without a decimal point); other values are
given a placeholder rendering. -/
def format3g (d : PyDec) : PyStr :=
  if d.num % 10 ^ d.scale = 0 ∧ d.num / 10 ^ d.scale < 1000 then
    natToStr (d.num / 10 ^ d.scale)
  else pystr "?"

/-! ### The name formatter -/

/-- A replacement table value: a fixed string or a transformation function,
mirroring the dynamic string-or-callable dispatch of the Python code. -/
inductive PyRep : Type
  | str : PyStr → PyRep
  | fn : (Match → PyStr) → PyRep

/-- One ordered replacement dictionary of the Python source. -/
abbrev RepTable := List (RE × PyRep)

/-- One entry step of `titleFromName` (cross_analysis.py, lines 687-697):
a fixed string is substituted globally; for a function, the string is first
searched, a concrete replacement is computed from the first match if one
exists and substituted globally, and with no match `re.sub` is called with
the callable itself (finding nothing). -/
def applyReplacement (name : PyStr) (pr : RE × PyRep) : PyStr :=
  match pr.2 with
  | PyRep.str s => reSub pr.1 (fun _ => s) name
  | PyRep.fn f =>
    match reSearch pr.1 name with
    | some m => reSub pr.1 (fun _ => f m) name
    | none => reSub pr.1 f name

/-- One replacement dictionary applied entry by entry in table order. -/
def applyTable (name : PyStr) (t : RepTable) : PyStr :=
  t.foldl applyReplacement name

/-- Embedding of `titleFromName` (cross_analysis.py, lines 681-703): the
tables are applied strictly in order, then three fixed literal substitutions
are performed in order. -/
def titleFromName (name : PyStr) (replacement_dictionaries : List RepTable) : PyStr :=
  pyReplaceStr (pyReplaceStr (pyReplaceStr
    (replacement_dictionaries.foldl applyTable name)
    (pystr "/") (pystr "; "))
    (pystr "-") (pystr "; "))
    (pystr "_") (pystr " ")

/-- The specification's description of one Name Formatter entry: search
first; if a match is found compute one concrete replacement from it and
substitute that single string for every occurrence; with no match the
string is left unchanged. -/
def applyReplacementSpec (name : PyStr) (pr : RE × PyRep) : PyStr :=
  match pr.2 with
  | PyRep.str s => reSub pr.1 (fun _ => s) name
  | PyRep.fn f =>
    match reSearch pr.1 name with
    | some m => reSub pr.1 (fun _ => f m) name
    | none => name

/-- The specification's description of the whole Name Formatter: tables in
the given order, entries in table order, then the three fixed literal
substitutions in order. -/
def titleFromNameSpec (name : PyStr) (tables : List RepTable) : PyStr :=
  pyReplaceStr (pyReplaceStr (pyReplaceStr
    (tables.foldl (fun n t => t.foldl applyReplacementSpec n) name)
    (pystr "/") (pystr "; "))
    (pystr "-") (pystr "; "))
    (pystr "_") (pystr " ")

/-! ### The data-set replacement tables (cross_analysis.py, lines 705-760) -/

/-- Table `data_set_name_replacements`. -/
def data_set_name_replacements : RepTable := [
  (strRE "10x", PyRep.str (pystr "10x")),
  (strRE "10x_20k", PyRep.str (pystr "10x (20k samples)")),
  (strRE "10x_arc_lira", PyRep.str (pystr "10x ARC LIRA")),
  (strRE "development", PyRep.str (pystr "Development")),
  (RE.cat (strRE "dimm_sc_10x_") (RE.group 1 (RE.plus wordChar)),
    PyRep.fn (fun m => pystr "3′ (" ++ pyFormatOptStr (m.group 1) ++ pystr ")")),
  (strRE "gtex", PyRep.str (pystr "GTEx")),
  (RE.cat (strRE "mnist_") (RE.group 1 (RE.plus wordChar)),
    PyRep.fn (fun m => pystr "MNIST (" ++ pyFormatOptStr (m.group 1) ++ pystr ")")),
  (RE.cat (strRE "sample")
      (RE.cat (RE.opt (RE.lit '_')) (RE.opt (RE.group 1 (strRE "sparse")))),
    PyRep.fn (fun m =>
      if m.groups.length = 1 then pystr "Sample"
      else pystr "Sample (" ++ pyFormatOptStr (m.group 1) ++ pystr ")")),
  (strRE "tcga_kallisto", PyRep.str (pystr "TCGA (Kallisto)"))
]

/-- Table `split_replacements`. -/
def split_replacements : RepTable := [
  (RE.cat (strRE "split-")
      (RE.cat (RE.group 1 (RE.plus wordChar))
        (RE.cat (RE.lit '_')
          (RE.group 2 (RE.cat (strRE "0.") (RE.plus Char.isDigit))))),
    PyRep.fn (fun m =>
      pyFormatOptStr (m.group 1) ++ pystr " split (" ++
        format3g (PyDec.mulNat 100 (pyFloatOfStr (pyFormatOptStr (m.group 2)))) ++
        pystr " %)"))
]

/-- Table `feature_replacements`. -/
def feature_replacements : RepTable := [
  (strRE "features_mapped", PyRep.str (pystr "feature mapping")),
  (RE.cat (strRE "keep_gini_indices_above_") (RE.group 1 (RE.plus digitDot)),
    PyRep.fn (fun m =>
      pystr "features with Gini index above " ++
        natToStr (pyIntTrunc (pyFloatOfStr (pyFormatOptStr (m.group 1)))))),
  (RE.cat (strRE "keep_highest_gini_indices_") (RE.group 1 (RE.plus digitDot)),
    PyRep.fn (fun m =>
      pystr " " ++
        natToStr (pyIntTrunc (pyFloatOfStr (pyFormatOptStr (m.group 1)))) ++
        pystr " features with highest Gini indices")),
  (RE.cat (strRE "keep_variances_above_") (RE.group 1 (RE.plus digitDot)),
    PyRep.fn (fun m =>
      pystr "features with variance above " ++
        natToStr (pyIntTrunc (pyFloatOfStr (pyFormatOptStr (m.group 1)))))),
  (RE.cat (strRE "keep_highest_variances_") (RE.group 1 (RE.plus digitDot)),
    PyRep.fn (fun m =>
      natToStr (pyIntTrunc (pyFloatOfStr (pyFormatOptStr (m.group 1)))) ++
        pystr " most varying features"))
]

/-- Table `example_feaute_replacements` (sic, the source's spelling). -/
def example_feaute_replacements : RepTable := [
  (strRE "macosko", PyRep.str (pystr "Macosko")),
  (strRE "remove_zeros", PyRep.str (pystr "examples with only zeros removed")),
  (RE.cat (strRE "remove_count_sum_above_") (RE.group 1 (RE.plus digitDot)),
    PyRep.fn (fun m =>
      pystr "examples with count sum above " ++
        natToStr (pyIntTrunc (pyFloatOfStr (pyFormatOptStr (m.group 1)))) ++
        pystr " removed"))
]

/-- Table `example_replacements`. -/
def example_replacements : RepTable := [
  (RE.cat (strRE "keep_") (RE.group 1 (RE.plus wordChar)),
    PyRep.fn (fun m =>
      pyReplaceStr (pyFormatOptStr (m.group 1)) (pystr "_") (pystr ", ") ++
        pystr " examples")),
  (RE.cat (strRE "remove_") (RE.group 1 (RE.plus wordChar)),
    PyRep.fn (fun m =>
      pyReplaceStr (pyFormatOptStr (m.group 1)) (pystr "_") (pystr ", ") ++
        pystr " examples removed")),
  (strRE "excluded_classes", PyRep.str (pystr "excluded classes removed"))
]

/-- Table `preprocessing_replacements`. -/
def preprocessing_replacements : RepTable := [
  (strRE "gini", PyRep.str (pystr "Gini indices")),
  (strRE "idf", PyRep.str (pystr "IDF"))
]

/-- Embedding of `titleFromDataSetName` (cross_analysis.py, lines 762-773). -/
def titleFromDataSetName (name : PyStr) : PyStr :=
  titleFromName name [
    data_set_name_replacements,
    split_replacements,
    feature_replacements,
    example_feaute_replacements,
    example_replacements,
    preprocessing_replacements
  ]

/-! ### Comparison rows, model identifiers and the correlation table -/

/-- Fuelled helper for `pySplitOnSep`; `acc` holds the reversed current
segment. -/
def pySplitSepAux (sep : PyStr) : Nat → PyStr → PyStr → List PyStr
  | 0, acc, s => [acc.reverse ++ s]
  | fuel + 1, acc, s =>
    if !sep.isEmpty && sep.isPrefixOf s then
      acc.reverse :: pySplitSepAux sep fuel [] (s.drop sep.length)
    else
      match s with
      | [] => [acc.reverse]
      | c :: cs => pySplitSepAux sep fuel (c :: acc) cs

/-- Python's `str.split(sep)` with a literal nonempty separator: split at
every leftmost non-overlapping occurrence, keeping empty segments. -/
def pySplitOnSep (s sep : PyStr) : List PyStr :=
  pySplitSepAux sep (s.length + 1) [] s

/-- Embedding of the comparison-row field derivation (cross_analysis.py,
lines 399-407): the formatted model title is split on "; "; `type`,
`distribution` and `sizes` are popped from the front, the epoch label is
popped from the back (with the literal " epochs" removed), and the rest is
joined with "; " as `other`.  `none` models the Python `IndexError` raised
by `pop` on an exhausted list. -/
def deriveComparisonFields (model_title : PyStr) :
    Option (PyStr × PyStr × PyStr × PyStr × PyStr) :=
  match pySplitOnSep model_title (pystr "; ") with
  | t :: d :: z :: rest =>
    match rest.getLast? with
    | some lastSeg =>
      some (t, d, z,
        pyReplaceStr lastSeg (pystr " epochs") [],
        List.intercalate (pystr "; ") rest.dropLast)
    | none => none
  | _ => none

/-- The ordered value alphabet of `modelID` (cross_analysis.py, lines
865-868): the digit strings "0".."9" followed by the uppercase letters. -/
def modelIDValues : List PyStr :=
  (List.range 10).map (fun n => [Char.ofNat (48 + n)]) ++
    (pystr "ABCDEFGHIJKLMNOPQRSTUVWXYZ").map (fun c => [c])

/-- All concatenated pairs over the alphabet in `itertools.product` order. -/
def modelIDPairs : List PyStr :=
  (modelIDValues.map (fun v1 => modelIDValues.map (fun v2 => v1 ++ v2))).flatten

/-- Embedding of the `modelID` generator (cross_analysis.py, lines 863-874)
as the list of labels it yields in order: a pair whose concatenation
satisfies `isdigit` is skipped. -/
def modelID : List PyStr := modelIDPairs.filter (fun l => !(pyIsDigitStr l))

/-- Embedding of the correlation-table loop (cross_analysis.py, lines
332-344): the correlation sets are visited in order; a set whose ELBO
sequence has fewer than two values is skipped; otherwise the Pearson
correlation (an external collaborator, abstracted as `pearson`) of the two
sequences is entered under the set's name. -/
def buildCorrelationTable (V : Type) (pearson : List V → List V → V)
    (correlation_sets : List (PyStr × List V × List V)) : List (PyStr × V) :=
  correlation_sets.foldl
    (fun tbl s =>
      if s.2.1.length < 2 then tbl
      else tbl ++ [(s.1, pearson s.2.1 s.2.2)])
    []

/-! ### The directory scanner -/

/-- Update of a Python-dict model: an existing key keeps its position and
its value becomes `f (some old)`, a missing key is appended with `f none`. -/
def dupdate (k : PyStr) (f : Option B → B) : List (PyStr × B) → List (PyStr × B)
  | [] => [(k, f none)]
  | (k1, v1) :: rest =>
    if k1 = k then (k, f (some v1)) :: rest else (k1, v1) :: dupdate k f rest

/-- Python-dict assignment `d[k] = v`. -/
def dinsert (k : PyStr) (v : B) (l : List (PyStr × B)) : List (PyStr × B) :=
  dupdate k (fun _ => v) l

/-- Python-dict lookup. -/
def dlookup (k : PyStr) : List (PyStr × B) → Option B
  | [] => none
  | (k1, v1) :: rest => if k1 = k then some v1 else dlookup k rest

/-- Constant `test_metrics_basename` (cross_analysis.py, line 42). -/
def test_metrics_basename : PyStr := pystr "test-metrics"

/-- Constant `test_prediction_basename` (cross_analysis.py, line 43). -/
def test_prediction_basename : PyStr := pystr "test-prediction"

/-- Constant `zipped_pickle_extension` (cross_analysis.py, line 45). -/
def zipped_pickle_extension : PyStr := pystr ".pkl.gz"

/-- The fixed metrics file name `test-metrics.pkl.gz`. -/
def test_metrics_filename : PyStr :=
  test_metrics_basename ++ zipped_pickle_extension

/-- Qualification test for a prediction file (cross_analysis.py, lines
638-639): prediction prefix and compressed-serialization suffix. -/
def isPredictionFile (filename : PyStr) : Bool :=
  test_prediction_basename.isPrefixOf filename &&
    zipped_pickle_extension.isSuffixOf filename

/-- Derived key of a prediction file (cross_analysis.py, lines 641-644):
every occurrence of ".pkl.gz" removed, then every occurrence of
"test-prediction" removed, then every "-" character removed. -/
def predictionName (filename : PyStr) : PyStr :=
  pyReplaceStr (pyReplaceStr (pyReplaceStr filename zipped_pickle_extension [])
    test_prediction_basename []) (pystr "-") []

/-- The derivation of the key as claim C10 words it: the ".pkl.gz" suffix
removed (one trailing occurrence), then the "test-prediction" substring
removed, then every remaining "-" character deleted. -/
def predictionNameClaimed (filename : PyStr) : PyStr :=
  pyReplaceStr (pyReplaceStr
    (if zipped_pickle_extension.isSuffixOf filename then
      filename.take (filename.length - zipped_pickle_extension.length)
     else filename)
    test_prediction_basename []) (pystr "-") []

/-- The prediction-loading loop of one directory (cross_analysis.py, lines
637-654): every qualifying file is loaded (through the abstract pickle
collaborator `load`) and stored under its derived name, a later file
overwriting an earlier one with the same key. -/
def buildPredictions (A : Type) (load : PyStr → A) (filenames : List PyStr) :
    List (PyStr × A) :=
  filenames.foldl
    (fun preds f =>
      if isPredictionFile f then dinsert (predictionName f) (load f) preds
      else preds)
    []

/-- One directory visited by `os.walk`: its path segments relative to the
results root, its file names, and the (abstract, deserialized) content
`load` yields for each of its files. -/
structure DirNode (A : Type) where
  parts : List PyStr
  files : List PyStr
  load : PyStr → A

/-- Record built for one qualifying directory, mirroring the Python dict:
the deserialized metrics data plus a "predictions" key that is set only
when at least one prediction file was found. -/
structure MetricsRecord (A : Type) where
  data : A
  predictions : Option (List (PyStr × A))

/-- The path separator `os.sep`. -/
def sepChar : Char := '/'

/-- `os.sep.join` of path segments. -/
def joinPath (parts : List PyStr) : PyStr := List.intercalate [sepChar] parts

/-- Store a record under (data set, model), creating the inner dict when the
data-set key is new, as the Python code does. -/
def insertRecord (ds md : PyStr) (r : B)
    (acc : List (PyStr × List (PyStr × B))) :
    List (PyStr × List (PyStr × B)) :=
  dupdate ds (fun inner => dinsert md r (inner.getD [])) acc

/-- Two-level lookup in the scanner's result. -/
def lookupRecord (ds md : PyStr) (table : List (PyStr × List (PyStr × B))) :
    Option B :=
  (dlookup ds table).bind (fun inner => dlookup md inner)

/-- Embedding of `testMetricsInResultsDirectory` (cross_analysis.py, lines
586-661) over a pure directory tree: each visited directory is decomposed
into a data-set identifier (first three path segments) and a model
identifier (the remaining segments); both must pass their substring
filters; a directory without the fixed metrics file contributes nothing;
otherwise its record (metrics data plus the derived prediction mapping,
present only when nonempty) is stored under (data set, model). -/
def testMetricsInResultsDirectory (A : Type) (tree : List (DirNode A))
    (data_set_included data_set_excluded model_included model_excluded :
      List PyStr) :
    List (PyStr × List (PyStr × MetricsRecord A)) :=
  tree.foldl
    (fun acc node =>
      if matchString (joinPath (node.parts.take 3))
          data_set_included data_set_excluded = 0 then acc
      else if matchString (joinPath (node.parts.drop 3))
          model_included model_excluded = 0 then acc
      else if test_metrics_filename ∈ node.files then
        insertRecord (joinPath (node.parts.take 3))
          (joinPath (node.parts.drop 3))
          ⟨node.load test_metrics_filename,
           if (buildPredictions A node.load node.files).isEmpty then none
           else some (buildPredictions A node.load node.files)⟩
          acc
      else acc)
    []

/-- The condition, stated by the specification, under which a visited
directory contributes a record for the pair (ds, md): it decomposes to that
pair, both identifiers pass their filters, and the fixed metrics file is
among its files. -/
def nodeQualifies (A : Type) (dI dE mI mE : List PyStr) (ds md : PyStr)
    (node : DirNode A) : Prop :=
  joinPath (node.parts.take 3) = ds ∧ joinPath (node.parts.drop 3) = md ∧
  matchString (joinPath (node.parts.take 3)) dI dE ≠ 0 ∧
  matchString (joinPath (node.parts.drop 3)) mI mE ≠ 0 ∧
  test_metrics_filename ∈ node.files

/-! ### Theorems -/

theorem foldl_mul_ne_zero (g : PyStr → Nat) (l : List PyStr) (a : Nat) :
    l.foldl (fun m t => m * g t) a ≠ 0 ↔ a ≠ 0 ∧ ∀ t ∈ l, g t ≠ 0 := by
  induction l generalizing a with
  | nil => simp
  | cons x xs ih =>
    simp only [List.foldl_cons, List.mem_cons]
    rw [ih]
    constructor
    · rintro ⟨hax, hall⟩
      rcases Nat.mul_ne_zero_iff.mp hax with ⟨ha, hx⟩
      exact ⟨ha, fun t ht => ht.elim (fun h => h ▸ hx) (hall t)⟩
    · rintro ⟨ha, hall⟩
      exact ⟨Nat.mul_ne_zero ha (hall x (Or.inl rfl)),
        fun t ht => hall t (Or.inr ht)⟩

/-- Claim C1: `matchString s included excluded` is truthy (nonzero) iff every
member of `included` is a substring of `s` and no member of `excluded` is a
substring of `s`; in particular with both filter lists empty every string
matches. -/
theorem matchString_truthy_iff (s : PyStr) (included excluded : List PyStr) :
    (matchString s included excluded ≠ 0 ↔
      (∀ t ∈ included, pyIn t s = true) ∧ (∀ t ∈ excluded, pyIn t s = false)) ∧
    matchString s [] [] ≠ 0 := by
  constructor
  · unfold matchString
    rw [foldl_mul_ne_zero, foldl_mul_ne_zero]
    constructor
    · rintro ⟨⟨-, hincl⟩, hexcl⟩
      refine ⟨fun t ht => ?_, fun t ht => ?_⟩
      · have h := hincl t ht
        cases hc : pyIn t s <;> simp [hc] at h ⊢
      · have h := hexcl t ht
        cases hc : pyIn t s <;> simp [hc] at h ⊢
    · rintro ⟨hincl, hexcl⟩
      refine ⟨⟨one_ne_zero, fun t ht => ?_⟩, fun t ht => ?_⟩
      · simp [hincl t ht]
      · simp [hexcl t ht]
  · simp [matchString]

/-- Witness for C1 at a concrete input: "ab" contains "a" and not "z". -/
theorem matchString_truthy_iff_witness :
    matchString (pystr "ab") [pystr "a"] [pystr "z"] ≠ 0 :=
  (matchString_truthy_iff (pystr "ab") [pystr "a"] [pystr "z"]).1.mpr
    ⟨by decide, by decide⟩

theorem digitStr_not_ws (c : Char) (h : c.isDigit = true) : c.isWhitespace = false := by
  cases hw : c.isWhitespace
  · rfl
  · exfalso
    simp only [Char.isWhitespace, Bool.or_eq_true, decide_eq_true_eq] at hw
    rcases hw with ((h1 | h1) | h1) | h1 <;> subst h1 <;> exact absurd h (by decide)

theorem pyIsDigitStr_append_space (d t : PyStr) :
    pyIsDigitStr (d ++ ' ' :: t) = false := by
  have hsp : (' ').isDigit = false := by decide
  simp [pyIsDigitStr, List.all_append, hsp]

theorem pySplitWSAux_append (a : PyStr) (ha : ∀ c ∈ a, c.isWhitespace = false) :
    ∀ rest acc, pySplitWSAux (a ++ rest) acc = pySplitWSAux rest (a.reverse ++ acc) := by
  induction a with
  | nil => intro rest acc; simp
  | cons c a ih =>
    intro rest acc
    have hc : c.isWhitespace = false := ha c (List.mem_cons_self c a)
    have ha' : ∀ x ∈ a, x.isWhitespace = false := fun x hx => ha x (List.mem_cons_of_mem c hx)
    simp only [List.cons_append, pySplitWSAux, hc, Bool.false_eq_true, if_false,
      List.append_eq]
    rw [ih ha' rest (c :: acc)]
    simp

theorem pySplitWS_word (t : PyStr) (htws : ∀ c ∈ t, c.isWhitespace = false)
    (htne : t ≠ []) : pySplitWSAux t [] = [t] := by
  have h := pySplitWSAux_append t htws [] []
  simp only [List.append_nil] at h
  rw [h]
  simp [pySplitWSAux, List.isEmpty_iff, htne]

theorem pySplitWS_word_space_word (d t : PyStr)
    (hdws : ∀ c ∈ d, c.isWhitespace = false) (hdne : d ≠ [])
    (htws : ∀ c ∈ t, c.isWhitespace = false) (htne : t ≠ []) :
    pySplitWS (d ++ ' ' :: t) = [d, t] := by
  unfold pySplitWS
  rw [pySplitWSAux_append d hdws]
  simp only [List.append_nil]
  have hsp : (' ').isWhitespace = true := by decide
  have hrev : d.reverse.isEmpty = false := by
    cases hd : d with
    | nil => exact absurd hd hdne
    | cons x xs => subst hd; simp
  simp only [pySplitWSAux, hsp, if_true, hrev, Bool.false_eq_true, if_false,
    List.reverse_reverse]
  rw [pySplitWS_word t htws htne]

theorem parse_mkLabel (d : PyStr) (tag : Option PyStr)
    (hd : pyIsDigitStr d = true)
    (htag : tag = none ∨ tag = some (pystr "(ES)") ∨ tag = some (pystr "(*)")) :
    parseNumberOfEpochsAndVersion (mkLabel d tag) =
      some (pyIntOfDigits d, tagRank tag) := by
  have hdne : d ≠ [] := by
    intro h; subst h; simp [pyIsDigitStr] at hd
  have hdig : ∀ c ∈ d, c.isDigit = true := by
    have h := hd
    simp only [pyIsDigitStr, Bool.and_eq_true, List.all_eq_true] at h
    exact h.2
  have hdws : ∀ c ∈ d, c.isWhitespace = false :=
    fun c hc => digitStr_not_ws c (hdig c hc)
  rcases htag with rfl | rfl | rfl
  · simp [mkLabel, parseNumberOfEpochsAndVersion, hd, tagRank]
  · have h1 := pyIsDigitStr_append_space d (pystr "(ES)")
    have hsplit := pySplitWS_word_space_word d (pystr "(ES)") hdws hdne
      (by decide) (by decide)
    have hv : versionRank (pystr "(ES)") = some (-1) := by decide
    have htr : tagRank (some (pystr "(ES)")) = -1 := by decide
    simp [mkLabel, parseNumberOfEpochsAndVersion, h1, hsplit, hd, hv, htr]
  · have h1 := pyIsDigitStr_append_space d (pystr "(*)")
    have hsplit := pySplitWS_word_space_word d (pystr "(*)") hdws hdne
      (by decide) (by decide)
    have hv : versionRank (pystr "(*)") = some 2 := by decide
    have htr : tagRank (some (pystr "(*)")) = 2 := by decide
    simp [mkLabel, parseNumberOfEpochsAndVersion, h1, hsplit, hd, hv, htr]

/-- Claim C2: for two well-formed checkpoint labels (a digit string with an
optional " (ES)" or " (*)" tag), `bestModelVersion` returns the label of
higher version rank (untagged 0, early-stopped -1, best 2), ties broken by
higher epoch count, exact ties returning the first argument; in particular
on "20"/"15", "20"/"20" and "30 (ES)"/"10". -/
theorem bestModelVersion_rank_rule :
    (∀ d1 d2 tag1 tag2, pyIsDigitStr d1 = true → pyIsDigitStr d2 = true →
      (tag1 = none ∨ tag1 = some (pystr "(ES)") ∨ tag1 = some (pystr "(*)")) →
      (tag2 = none ∨ tag2 = some (pystr "(ES)") ∨ tag2 = some (pystr "(*)")) →
      bestModelVersion (mkLabel d1 tag1) (mkLabel d2 tag2) =
        some (if tagRank tag1 > tagRank tag2 then mkLabel d1 tag1
          else if tagRank tag2 > tagRank tag1 then mkLabel d2 tag2
          else if pyIntOfDigits d1 > pyIntOfDigits d2 then mkLabel d1 tag1
          else if pyIntOfDigits d2 > pyIntOfDigits d1 then mkLabel d2 tag2
          else mkLabel d1 tag1)) ∧
    bestModelVersion (pystr "20") (pystr "15") = some (pystr "20") ∧
    bestModelVersion (pystr "20") (pystr "20") = some (pystr "20") ∧
    bestModelVersion (pystr "30 (ES)") (pystr "10") = some (pystr "10") := by
  refine ⟨?_, by decide, by decide, by decide⟩
  intro d1 d2 tag1 tag2 h1 h2 ht1 ht2
  rw [bestModelVersion, parse_mkLabel d1 tag1 h1 ht1, parse_mkLabel d2 tag2 h2 ht2]
  dsimp only
  split_ifs <;> rfl

/-- Witness for C2 at a concrete input: "7 (*)" beats "9" on rank. -/
theorem bestModelVersion_rank_rule_witness :
    bestModelVersion (pystr "7 (*)") (pystr "9") = some (pystr "7 (*)") := by
  have h := bestModelVersion_rank_rule.1 (pystr "7") (pystr "9")
    (some (pystr "(*)")) none (by decide) (by decide)
    (Or.inr (Or.inr rfl)) (Or.inl rfl)
  have e1 : mkLabel (pystr "7") (some (pystr "(*)")) = pystr "7 (*)" := by decide
  have e2 : mkLabel (pystr "9") none = pystr "9" := rfl
  rw [e1, e2] at h
  rw [h]
  decide

/-- Claim C3 counterexample: on the label "10 epochs" the version-tag lookup
fails ("epochs" is not a key of the rank table, a Python KeyError), so
`bestModelVersion "10 epochs" "5 (*)"` errors instead of returning "5 (*)". -/
theorem bestModelVersion_epochs_label_fails :
    bestModelVersion (pystr "10 epochs") (pystr "5 (*)") = none := by decide

/-- Claim C3 amended: with the epoch-only label "10" (the caller strips the
literal " epochs" before comparing), the best-checkpoint tag outranks the
higher epoch count. -/
theorem bestModelVersion_best_tag_outranks :
    bestModelVersion (pystr "10") (pystr "5 (*)") = some (pystr "5 (*)") := by
  decide

theorem reSub_of_search_none (r : RE) (f : Match → PyStr) (s : PyStr)
    (h : reSearchAux r s = none) : reSubFuel r f (s.length + 1) s = s := by
  induction s with
  | nil =>
    simp only [reSearchAux] at h
    have hf : firstMatch r [] = none := Option.map_eq_none'.mp h
    simp [reSubFuel, hf]
  | cons c cs ih =>
    simp only [reSearchAux] at h
    cases hf : firstMatch r (c :: cs) with
    | some o => rw [hf] at h; exact absurd h (by simp)
    | none =>
      rw [hf] at h
      have e1 : (c :: cs).length + 1 = (cs.length + 1) + 1 := by simp
      rw [e1, reSubFuel, hf]
      dsimp only
      rw [ih h]

/-- Claim C4: `titleFromName` processes the tables strictly in the given
order and each table's entries in order; a transformation-function entry
first searches, computes one replacement string from the first match if any
and substitutes that single string for every occurrence (leaving the string
unchanged when there is no match); afterwards exactly three literal
substitutions run in order: "/" to "; ", "-" to "; ", "_" to " ". -/
theorem titleFromName_matches_description (name : PyStr)
    (tables : List RepTable) :
    titleFromName name tables = titleFromNameSpec name tables := by
  have happly : applyReplacement = applyReplacementSpec := by
    funext n pr
    rcases pr with ⟨r, rep⟩
    cases rep with
    | str s => rfl
    | fn f =>
      simp only [applyReplacement, applyReplacementSpec]
      cases hs : reSearch r n with
      | some m => simp [hs]
      | none =>
        simp only [hs]
        exact reSub_of_search_none r f n hs
  have htab : applyTable = (fun n t => t.foldl applyReplacementSpec n) := by
    funext n t
    simp only [applyTable, happly]
  unfold titleFromName titleFromNameSpec
  rw [htab]

set_option maxRecDepth 100000 in
/-- Claim C5: on the literal data-set name
"mnist_binarised-split-train_0.8-keep_gini_indices_above_0.5" the formatter
produces exactly the segments "MNIST (binarised)", "train split (80 %)" and
"features with Gini index above 0" joined with "; ". -/
theorem titleFromDataSetName_example :
    titleFromDataSetName
        (pystr "mnist_binarised-split-train_0.8-keep_gini_indices_above_0.5") =
      List.intercalate (pystr "; ")
        [pystr "MNIST (binarised)", pystr "train split (80 %)",
         pystr "features with Gini index above 0"] := by
  decide

/-- Claim C7: the comparison display fields come from splitting the model
title on "; ", with type, distribution and sizes the first three segments,
the epoch label the last segment, and the remainder joined as `other`; the
derivation fails exactly when the title has fewer than four segments. -/
theorem deriveComparisonFields_spec (model_title : PyStr) :
    ((deriveComparisonFields model_title).isSome ↔
      4 ≤ (pySplitOnSep model_title (pystr "; ")).length) ∧
    (∀ t d z mid lastSeg,
      pySplitOnSep model_title (pystr "; ") = t :: d :: z :: (mid ++ [lastSeg]) →
      deriveComparisonFields model_title =
        some (t, d, z, pyReplaceStr lastSeg (pystr " epochs") [],
          List.intercalate (pystr "; ") mid)) := by
  constructor
  · unfold deriveComparisonFields
    cases hp : pySplitOnSep model_title (pystr "; ") with
    | nil => simp
    | cons a l1 =>
      cases l1 with
      | nil => simp
      | cons b l2 =>
        cases l2 with
        | nil => simp
        | cons c l3 =>
          cases l3 with
          | nil => simp
          | cons e l4 =>
            cases hg : (e :: l4).getLast? with
            | none =>
              exact absurd (List.getLast?_eq_none_iff.mp hg) (by simp)
            | some x => simp [hg]
  · intro t d z mid lastSeg h
    unfold deriveComparisonFields
    rw [h]
    dsimp only
    rw [List.getLast?_concat, List.dropLast_concat]

/-- Witness for C7 at a concrete four-segment title. -/
theorem deriveComparisonFields_spec_witness :
    deriveComparisonFields (pystr "VAE(G); NB; 100×10; 20 epochs") =
      some (pystr "VAE(G)", pystr "NB", pystr "100×10", pystr "20", []) := by
  have h := (deriveComparisonFields_spec
    (pystr "VAE(G); NB; 100×10; 20 epochs")).2
    (pystr "VAE(G)") (pystr "NB") (pystr "100×10") [] (pystr "20 epochs")
    (by decide)
  rw [h]
  decide

/-- Claim C8: `modelID` never yields a label that is all digits, yields only
concatenated pairs over the ordered alphabet '0'..'9','A'..'Z' (in the
Cartesian-product order, being a sublist of the full pair list), and its
first 27 values are "0A".."0Z" followed by "1A". -/
theorem modelID_spec :
    (∀ l ∈ modelID, pyIsDigitStr l = false ∧
      ∃ v1 ∈ modelIDValues, ∃ v2 ∈ modelIDValues, l = v1 ++ v2) ∧
    modelID.Sublist modelIDPairs ∧
    modelID.take 27 =
      [pystr "0A", pystr "0B", pystr "0C", pystr "0D", pystr "0E", pystr "0F",
       pystr "0G", pystr "0H", pystr "0I", pystr "0J", pystr "0K", pystr "0L",
       pystr "0M", pystr "0N", pystr "0O", pystr "0P", pystr "0Q", pystr "0R",
       pystr "0S", pystr "0T", pystr "0U", pystr "0V", pystr "0W", pystr "0X",
       pystr "0Y", pystr "0Z", pystr "1A"] := by
  refine ⟨?_, List.filter_sublist _, by decide⟩
  intro l hl
  unfold modelID at hl
  rw [List.mem_filter] at hl
  refine ⟨by simpa using hl.2, ?_⟩
  have h := hl.1
  unfold modelIDPairs at h
  rw [List.mem_flatten] at h
  obtain ⟨m, hm, hlm⟩ := h
  rw [List.mem_map] at hm
  obtain ⟨v1, hv1, rfl⟩ := hm
  rw [List.mem_map] at hlm
  obtain ⟨v2, hv2, rfl⟩ := hlm
  exact ⟨v1, hv1, v2, hv2, rfl⟩

/-- Witness for C8 at the concrete yielded label "0A". -/
theorem modelID_spec_witness :
    pyIsDigitStr (pystr "0A") = false ∧
      ∃ v1 ∈ modelIDValues, ∃ v2 ∈ modelIDValues, pystr "0A" = v1 ++ v2 :=
  modelID_spec.1 (pystr "0A") (by decide)

theorem corr_mem_aux (V : Type) (pearson : List V → List V → V)
    (sets : List (PyStr × List V × List V)) (name : PyStr) :
    ∀ init : List (PyStr × V),
    ((∃ v, (name, v) ∈ sets.foldl
        (fun tbl s => if s.2.1.length < 2 then tbl
          else tbl ++ [(s.1, pearson s.2.1 s.2.2)]) init) ↔
      (∃ v, (name, v) ∈ init) ∨ ∃ e a, (name, e, a) ∈ sets ∧ 2 ≤ e.length) := by
  induction sets with
  | nil => intro init; simp
  | cons s ss ih =>
    intro init
    obtain ⟨n, e, a⟩ := s
    simp only [List.foldl_cons]
    by_cases hlen : e.length < 2
    · rw [if_pos hlen, ih]
      constructor
      · rintro (h | ⟨e1, a1, hm, hge⟩)
        · exact Or.inl h
        · exact Or.inr ⟨e1, a1, List.mem_cons_of_mem _ hm, hge⟩
      · rintro (h | ⟨e1, a1, hm, hge⟩)
        · exact Or.inl h
        · rcases List.mem_cons.mp hm with heq | hm1
          · simp only [Prod.mk.injEq] at heq
            obtain ⟨-, he, -⟩ := heq
            exfalso
            rw [he] at hge
            omega
          · exact Or.inr ⟨e1, a1, hm1, hge⟩
    · rw [if_neg hlen, ih]
      constructor
      · rintro (⟨v, hv⟩ | ⟨e1, a1, hm, hge⟩)
        · rcases List.mem_append.mp hv with hv1 | hv1
          · exact Or.inl ⟨v, hv1⟩
          · have heq := List.mem_singleton.mp hv1
            simp only [Prod.mk.injEq] at heq
            obtain ⟨hn, -⟩ := heq
            refine Or.inr ⟨e, a, ?_, by omega⟩
            rw [hn]
            exact List.mem_cons_self _ _
        · exact Or.inr ⟨e1, a1, List.mem_cons_of_mem _ hm, hge⟩
      · rintro (⟨v, hv⟩ | ⟨e1, a1, hm, hge⟩)
        · exact Or.inl ⟨v, List.mem_append.mpr (Or.inl hv)⟩
        · rcases List.mem_cons.mp hm with heq | hm1
          · simp only [Prod.mk.injEq] at heq
            obtain ⟨hn, -, -⟩ := heq
            refine Or.inl ⟨pearson e a, List.mem_append.mpr (Or.inr ?_)⟩
            rw [hn]
            exact List.mem_singleton.mpr rfl
          · exact Or.inr ⟨e1, a1, hm1, hge⟩

/-- Claim C9: within one data set, a correlation row is produced for a
correlation set iff it holds at least two paired (objective, score)
observations; a set with fewer is skipped silently, with no row and no
error. -/
theorem buildCorrelationTable_spec (V : Type) (pearson : List V → List V → V)
    (sets : List (PyStr × List V × List V)) (name : PyStr)
    (_hpaired : ∀ s ∈ sets, s.2.1.length = s.2.2.length) :
    ((∃ v, (name, v) ∈ buildCorrelationTable V pearson sets) ↔
      ∃ e a, (name, e, a) ∈ sets ∧ 2 ≤ e.length) := by
  have h := corr_mem_aux V pearson sets name []
  simpa [buildCorrelationTable] using h

/-- Witness for C9: a two-observation set gets a row, applied at a concrete
input. -/
theorem buildCorrelationTable_spec_witness :
    ∃ v, (pystr "x", v) ∈ buildCorrelationTable Nat (fun _ _ => 0)
      [(pystr "x", [1, 2], [3, 4])] :=
  (buildCorrelationTable_spec Nat (fun _ _ => 0)
      [(pystr "x", [1, 2], [3, 4])] (pystr "x")
      (by intro s hs; rw [List.mem_singleton.mp hs]; rfl)).mpr
    ⟨[1, 2], [3, 4], List.mem_singleton.mpr rfl, by decide⟩

theorem dlookup_dupdate (k k1 : PyStr) (f : Option B → B) (l : List (PyStr × B)) :
    dlookup k (dupdate k1 f l) =
      if k1 = k then some (f (dlookup k l)) else dlookup k l := by
  induction l with
  | nil => by_cases h : k1 = k <;> simp [dupdate, dlookup, h]
  | cons p rest ih =>
    obtain ⟨k2, v2⟩ := p
    by_cases h21 : k2 = k1 <;> by_cases h1k : k1 = k <;>
      simp_all [dupdate, dlookup]

theorem dlookup_dinsert (k k1 : PyStr) (v : B) (l : List (PyStr × B)) :
    dlookup k (dinsert k1 v l) = if k1 = k then some v else dlookup k l := by
  simp [dinsert, dlookup_dupdate]

theorem dlookup_getD (md : PyStr) (o : Option (List (PyStr × B))) :
    dlookup md (o.getD []) = o.bind (fun inner => dlookup md inner) := by
  cases o <;> simp [dlookup]

theorem lookupRecord_insertRecord (ds md ds1 md1 : PyStr) (r : B)
    (acc : List (PyStr × List (PyStr × B))) :
    lookupRecord ds md (insertRecord ds1 md1 r acc) =
      if ds1 = ds ∧ md1 = md then some r else lookupRecord ds md acc := by
  unfold lookupRecord insertRecord
  rw [dlookup_dupdate]
  by_cases hds : ds1 = ds
  · rw [if_pos hds]
    simp only [Option.some_bind]
    rw [dlookup_dinsert, dlookup_getD]
    by_cases hmd : md1 = md
    · simp [hds, hmd]
    · simp [hds, hmd]
  · rw [if_neg hds]
    simp [hds]

theorem exists_mem_cons_iff_of_not (x : C) (l : List C) (Q : C → Prop)
    (hx : ¬ Q x) : (∃ n ∈ x :: l, Q n) ↔ ∃ n ∈ l, Q n := by
  constructor
  · rintro ⟨n, hn, hq⟩
    rcases List.mem_cons.mp hn with rfl | hn1
    · exact absurd hq hx
    · exact ⟨n, hn1, hq⟩
  · rintro ⟨n, hn, hq⟩
    exact ⟨n, List.mem_cons_of_mem _ hn, hq⟩

theorem scanner_mem_aux (A : Type) (dI dE mI mE : List PyStr) (ds md : PyStr)
    (tree : List (DirNode A)) :
    ∀ acc : List (PyStr × List (PyStr × MetricsRecord A)),
    ((lookupRecord ds md (tree.foldl
        (fun acc node =>
          if matchString (joinPath (node.parts.take 3)) dI dE = 0 then acc
          else if matchString (joinPath (node.parts.drop 3)) mI mE = 0 then acc
          else if test_metrics_filename ∈ node.files then
            insertRecord (joinPath (node.parts.take 3))
              (joinPath (node.parts.drop 3))
              ⟨node.load test_metrics_filename,
               if (buildPredictions A node.load node.files).isEmpty then none
               else some (buildPredictions A node.load node.files)⟩
              acc
          else acc)
        acc)).isSome ↔
      (lookupRecord ds md acc).isSome ∨
        ∃ node ∈ tree, nodeQualifies A dI dE mI mE ds md node) := by
  induction tree with
  | nil => intro acc; simp
  | cons node rest ih =>
    intro acc
    simp only [List.foldl_cons]
    by_cases h1 : matchString (joinPath (node.parts.take 3)) dI dE = 0
    · rw [if_pos h1, ih,
        exists_mem_cons_iff_of_not node rest _ (fun hq => hq.2.2.1 h1)]
    · by_cases h2 : matchString (joinPath (node.parts.drop 3)) mI mE = 0
      · rw [if_neg h1, if_pos h2, ih,
          exists_mem_cons_iff_of_not node rest _ (fun hq => hq.2.2.2.1 h2)]
      · by_cases h3 : test_metrics_filename ∈ node.files
        · rw [if_neg h1, if_neg h2, if_pos h3, ih, lookupRecord_insertRecord]
          by_cases hP : joinPath (node.parts.take 3) = ds ∧
              joinPath (node.parts.drop 3) = md
          · refine iff_of_true (Or.inl (by simp [hP])) (Or.inr ?_)
            exact ⟨node, List.mem_cons_self _ _, hP.1, hP.2, h1, h2, h3⟩
          · rw [if_neg hP,
              exists_mem_cons_iff_of_not node rest _
                (fun hq => hP ⟨hq.1, hq.2.1⟩)]
        · rw [if_neg h1, if_neg h2, if_neg h3, ih,
            exists_mem_cons_iff_of_not node rest _ (fun hq => h3 hq.2.2.2.2)]

theorem buildPredictions_filter (A : Type) (load : PyStr → A)
    (files : List PyStr) :
    ∀ init, files.foldl
        (fun preds f => if isPredictionFile f then
          dinsert (predictionName f) (load f) preds else preds) init =
      (files.filter isPredictionFile).foldl
        (fun preds f => dinsert (predictionName f) (load f) preds) init := by
  induction files with
  | nil => intro init; simp
  | cons f fs ih =>
    intro init
    by_cases hf : isPredictionFile f <;>
      simp [List.foldl_cons, List.filter_cons, hf, ih]

/-- Claim C6 counterexample: a matching directory holding the metrics file
and exactly two qualifying prediction files whose derived names collide
stores a prediction mapping with a single entry, not two. -/
theorem scanner_two_predictions_collision :
    (lookupRecord (pystr "d1/d2/d3") (pystr "m")
        (testMetricsInResultsDirectory Nat
          [⟨[pystr "d1", pystr "d2", pystr "d3", pystr "m"],
            [pystr "test-metrics.pkl.gz",
             pystr "test-prediction-kmeans.pkl.gz",
             pystr "test-predictionk-means.pkl.gz"], fun _ => 0⟩]
          [] [] [] [])).map
      (fun r => (r.predictions.getD []).length) = some 1 := by
  decide

/-- Claim C6 amended: the scanner's mapping holds an entry for (ds, md) iff
some visited directory decomposes to that pair, passes both filters and
holds the fixed metrics file (so a pair with no metrics file is absent
entirely); and a directory whose qualifying prediction files are exactly
two files with DISTINCT derived names gets a prediction mapping of exactly
those two entries, keyed by the derived names, in order. -/
theorem testMetricsInResultsDirectory_spec (A : Type) (tree : List (DirNode A))
    (dI dE mI mE : List PyStr) (ds md : PyStr) :
    ((lookupRecord ds md
        (testMetricsInResultsDirectory A tree dI dE mI mE)).isSome ↔
      ∃ node ∈ tree, nodeQualifies A dI dE mI mE ds md node) ∧
    (∀ (load : PyStr → A) (files : List PyStr) (f1 f2 : PyStr),
      files.filter isPredictionFile = [f1, f2] →
      predictionName f1 ≠ predictionName f2 →
      buildPredictions A load files =
        [(predictionName f1, load f1), (predictionName f2, load f2)]) := by
  constructor
  · have h := scanner_mem_aux A dI dE mI mE ds md tree []
    simpa [testMetricsInResultsDirectory, lookupRecord, dlookup] using h
  · intro load files f1 f2 hfilter hne
    unfold buildPredictions
    rw [buildPredictions_filter, hfilter]
    simp [dinsert, dupdate, hne]

/-- Witness for C6 at a concrete tree and file list. -/
theorem testMetricsInResultsDirectory_spec_witness :
    buildPredictions Nat (fun f => f.length)
        [pystr "test-prediction-a.pkl.gz", pystr "test-prediction-b.pkl.gz"] =
      [(predictionName (pystr "test-prediction-a.pkl.gz"),
        (pystr "test-prediction-a.pkl.gz").length),
       (predictionName (pystr "test-prediction-b.pkl.gz"),
        (pystr "test-prediction-b.pkl.gz").length)] :=
  (testMetricsInResultsDirectory_spec Nat [] [] [] [] []
      (pystr "x") (pystr "y")).2
    (fun f => f.length)
    [pystr "test-prediction-a.pkl.gz", pystr "test-prediction-b.pkl.gz"]
    (pystr "test-prediction-a.pkl.gz") (pystr "test-prediction-b.pkl.gz")
    (by decide) (by decide)

/-- Claim C10 counterexample: for the qualifying file name
"test-prediction.pkl.gz-x.pkl.gz" the code's key (every ".pkl.gz"
occurrence removed) is "x", while the key described by the claim (only the
suffix removed) would be ".pkl.gzx". -/
theorem predictionName_not_suffix_strip :
    isPredictionFile (pystr "test-prediction.pkl.gz-x.pkl.gz") = true ∧
    predictionName (pystr "test-prediction.pkl.gz-x.pkl.gz") = pystr "x" ∧
    predictionNameClaimed (pystr "test-prediction.pkl.gz-x.pkl.gz") =
      pystr ".pkl.gzx" ∧
    predictionName (pystr "test-prediction.pkl.gz-x.pkl.gz") ≠
      predictionNameClaimed (pystr "test-prediction.pkl.gz-x.pkl.gz") := by
  decide

/-- Claim C10 amended: the stored key removes EVERY occurrence of ".pkl.gz"
and of "test-prediction" and deletes every "-"; names differing only in the
placement of "-" (such as the concrete pair below) thus derive equal keys,
and of two qualifying files with equal derived keys the later-enumerated
one's record overwrites the earlier one's in the prediction mapping. -/
theorem predictionName_collision_overwrite :
    predictionName (pystr "test-prediction-kmeans.pkl.gz") =
      predictionName (pystr "test-predictionk-means.pkl.gz") ∧
    (∀ (A : Type) (load : PyStr → A) (f1 f2 : PyStr),
      isPredictionFile f1 = true → isPredictionFile f2 = true →
      predictionName f1 = predictionName f2 →
      buildPredictions A load [f1, f2] = [(predictionName f1, load f2)]) := by
  refine ⟨by decide, ?_⟩
  intro A load f1 f2 h1 h2 heq
  simp only [buildPredictions, List.foldl_cons, List.foldl_nil, h1, h2,
    if_true]
  simp [dinsert, dupdate, heq]

/-- Witness for C10 at the concrete colliding pair. -/
theorem predictionName_collision_overwrite_witness :
    buildPredictions Nat (fun f => f.length)
        [pystr "test-prediction-kmeans.pkl.gz",
         pystr "test-predictionk-means.pkl.gz"] =
      [(predictionName (pystr "test-prediction-kmeans.pkl.gz"),
        (pystr "test-predictionk-means.pkl.gz").length)] :=
  predictionName_collision_overwrite.2 Nat (fun f => f.length)
    (pystr "test-prediction-kmeans.pkl.gz")
    (pystr "test-predictionk-means.pkl.gz")
    (by decide) (by decide) (by decide)
